import Mathlib

/-!
Verification of the Pixellate image-processing pipeline
(`src/pixellate/image_processor.py`, `src/pixellate/config.py`).

The pipeline is shallowly embedded: a decoded PIL image is a `Bitmap`
(width, height, color mode — pixel content is irrelevant to the claims);
the external codec (`PIL.Image.save` into a `BytesIO` buffer) is an
abstract size oracle `Bitmap → Except PyErr ℕ` returning the byte length
of the encode, or one of the exception classes the Python code catches.
`while` loops are embedded as fuel-indexed structural recursions; a
dedicated `Run.fuelOut` constructor marks fuel exhaustion, and the
termination theorems prove it is never reached for the fuel values the
top-level definitions supply.  Python floats (`scale_factor`,
`crop_size_inches`, `max_file_size_mb`) are modelled as rationals; the
claims settled here do not depend on binary-float rounding.  Python
`int()` truncates toward zero, which on the nonnegative values arising
here coincides with the floor, `pyIntQN`.
-/

namespace Pixellate

/-- Color mode of a decoded bitmap (PIL mode strings, abstracted: the code
only ever tests for mode `P`, the palette-indexed mode). -/
inductive Mode where
  | RGB
  | RGBA
  | P
  | other (tag : ℕ)
  deriving DecidableEq, Repr

/-- An in-memory decoded image: PIL `Image.Image`, abstracted to the data the
claims depend on.  Pixel content is not modelled; the encoded-size oracles are
arbitrary functions of the `Bitmap`. -/
structure Bitmap where
  width : ℕ
  height : ℕ
  mode : Mode
  deriving DecidableEq, Repr

/-- PIL `Image.resize((w, h), LANCZOS)`: the result has exactly the requested
dimensions and keeps the color mode (Pillow coerces the filter to NEAREST for
mode `P`, which does not affect dimensions or mode). -/
def Bitmap.resize (b : Bitmap) (w h : ℕ) : Bitmap :=
  { width := w, height := h, mode := b.mode }

/-- PIL `Image.convert('P', palette=Image.Palette.ADAPTIVE)`: same dimensions,
mode becomes palette-indexed. -/
def Bitmap.convertP (b : Bitmap) : Bitmap :=
  { width := b.width, height := b.height, mode := Mode.P }

/-- The centered square crop box computed by `crop_to_square`:
`min_dim = min(width, height)`, `left = (width - min_dim) // 2`,
`top = (height - min_dim) // 2`, `right = left + min_dim`,
`bottom = top + min_dim`, returned as `(left, top, right, bottom)`. -/
def cropBox (w h : ℕ) : ℕ × ℕ × ℕ × ℕ :=
  let m := min w h
  let left := (w - m) / 2
  let top := (h - m) / 2
  (left, top, left + m, top + m)

/-- PIL `Image.crop((l, t, r, b))`: the result has dimensions
`(r - l) × (b - t)` and the same mode. -/
def Bitmap.crop (b : Bitmap) (box : ℕ × ℕ × ℕ × ℕ) : Bitmap :=
  { width := box.2.2.1 - box.1, height := box.2.2.2 - box.2.1, mode := b.mode }

/-- Embedding of `ImageProcessor.crop_to_square`: center-crop to a
`min_dim × min_dim` square, then resize to `crop_size_pixels × crop_size_pixels`
if `min_dim != crop_size_pixels`. -/
def crop_to_square (image : Bitmap) (crop_size_pixels : ℕ) : Bitmap :=
  let m := min image.width image.height
  let cropped := image.crop (cropBox image.width image.height)
  if m ≠ crop_size_pixels then
    cropped.resize crop_size_pixels crop_size_pixels
  else
    cropped

/-- The geometry stage of `process_image` (its steps 1 and 2, the spec's
`crop_and_resample`): `crop_to_square` followed by the unconditional resize to
`(target_width, target_height)` with LANCZOS. -/
def crop_and_resample (image : Bitmap) (crop_px target_w target_h : ℕ) : Bitmap :=
  (crop_to_square image crop_px).resize target_w target_h

/-- Embedding of the compression-relevant fields of `config.Config`
(dataclass defaults in parentheses). -/
structure Config where
  jpeg_initial_quality : ℕ := 95
  jpeg_min_quality : ℕ := 10
  jpeg_quality_step : ℕ := 5
  png_compress_level : ℕ := 9
  min_scale_factor : ℚ := 1/2
  scale_factor_step : ℚ := 1/20
  deriving DecidableEq, Repr

/-- Embedding of `config.DEFAULT_CONFIG = Config()`. -/
def DEFAULT_CONFIG : Config := {}

/-- Python `int()` applied to a nonnegative rational: truncation toward zero,
which for nonnegative values is the floor. -/
def pyIntQN (x : ℚ) : ℕ := x.floor.toNat

/-- The exception classes caught by `process_image`'s
`except (ValueError, IOError, OSError)` clause (payload: `str(e)`).  In
Python 3, `IOError` is an alias of `OSError`; both names are kept to mirror
the except clause. -/
inductive PyErr where
  | valueError (msg : String)
  | ioError (msg : String)
  | osError (msg : String)
  deriving DecidableEq, Repr

/-- Outcome of running a piece of embedded Python: a normal return value, an
exception of one of the modelled classes propagating upward, or exhaustion of
the fuel that makes the embedded `while` loops structurally recursive.
`fuelOut` is a model artefact, proved unreachable for the fuel the top-level
definitions supply. -/
inductive Run (α : Type) where
  | out : α → Run α
  | raised : PyErr → Run α
  | fuelOut : Run α
  deriving DecidableEq, Repr

/-- Check whether a `Run` is a propagating exception. -/
def Run.isRaised : Run α → Bool
  | .raised _ => true
  | _ => false

/-- The `info` strings built by the processing code, abstracted to their
constructors with numeric payloads.  `couldNotFit` stands for the string
"Warning: Could not compress below target size. Final size: ... KB", which is
textually identical in `compress_jpeg` and `compress_png`, so it is a single
constructor. -/
inductive Msg where
  | uploadFirst
  | jpegFitQuality (size quality : ℕ)
  | jpegFitReduced (w h size quality : ℕ)
  | couldNotFit (size : ℕ)
  | pngFit (size : ℕ)
  | pngFitReduced (w h size : ℕ)
  | procError (e : PyErr)
  deriving DecidableEq, Repr

/-- Embedding of the first `while` loop of `compress_jpeg` (phase A, the
quality-only search).  `jencf q` is the byte length of saving the fixed
full-resolution bitmap as JPEG at quality `q` (with `optimize=True`), or an
exception.  Returns `.inl (file_size, quality)` when a quality level fits the
budget, `.inr quality` when the loop exits with the final quality value.
Loop condition as in the source: `while quality > jpeg_min_quality`. -/
def jpegQualityLoop (jencf : ℕ → Except PyErr ℕ) (maxB minQ qstep : ℕ) :
    ℕ → ℕ → Run ((ℕ × ℕ) ⊕ ℕ)
  | 0, _ => .fuelOut
  | fuel + 1, quality =>
    if quality ≤ minQ then .out (.inr quality)
    else
      match jencf quality with
      | .error e => .raised e
      | .ok file_size =>
        if file_size ≤ maxB then .out (.inl (file_size, quality))
        else jpegQualityLoop jencf maxB minQ qstep fuel (quality - qstep)

/-- Embedding of the second `while` loop of `compress_jpeg` (the
"resize more aggressively" loop).  `jenc b q` is the byte length of saving
bitmap `b` as JPEG at quality `q`.  State is `(quality, scale_factor)`;
the body resizes `processed` to `(int(target_w * s), int(target_h * s))`,
encodes, and on failure decrements `scale_factor` by `scale_factor_step`,
also decrementing `quality` by `jpeg_quality_step` once `scale_factor` has
dropped below `min_scale_factor` (the source does not reset `scale_factor`).
Returns `.inl (temp_img, new_width, new_height, file_size, quality)` on a
fit, `.inr quality` when the loop condition `quality > jpeg_min_quality`
fails. -/
def jpegScaleLoop (jenc : Bitmap → ℕ → Except PyErr ℕ) (processed : Bitmap)
    (maxB minQ qstep : ℕ) (minS sstep : ℚ) (target_w target_h : ℕ) :
    ℕ → ℕ → ℚ → Run ((Bitmap × ℕ × ℕ × ℕ × ℕ) ⊕ ℕ)
  | 0, _, _ => .fuelOut
  | fuel + 1, quality, s =>
    if quality ≤ minQ then .out (.inr quality)
    else
      let new_width := pyIntQN ((target_w : ℚ) * s)
      let new_height := pyIntQN ((target_h : ℚ) * s)
      let temp_img := processed.resize new_width new_height
      match jenc temp_img quality with
      | .error e => .raised e
      | .ok file_size =>
        if file_size ≤ maxB then
          .out (.inl (temp_img, new_width, new_height, file_size, quality))
        else
          let s' := s - sstep
          if s' < minS then
            jpegScaleLoop jenc processed maxB minQ qstep minS sstep target_w target_h
              fuel (quality - qstep) s'
          else
            jpegScaleLoop jenc processed maxB minQ qstep minS sstep target_w target_h
              fuel quality s'

/-- Fuel for the phase-A loop: `jpeg_initial_quality + 1` calls suffice
whenever `jpeg_quality_step ≥ 1` (the quality drops by at least 1 per
iteration and the loop exits at or below the floor). -/
def jpegFuelA (cfg : Config) : ℕ := cfg.jpeg_initial_quality + 1

/-- Fuel for one pass of a scale loop: enough iterations for `scale_factor`,
starting at 9/10 and decreasing by `scale_factor_step`, to drop below
`min_scale_factor`. -/
def scaleFuel (cfg : Config) : ℕ :=
  (⌈((9 : ℚ)/10 - cfg.min_scale_factor) / cfg.scale_factor_step⌉).toNat + 1

/-- Fuel for the second `compress_jpeg` loop (generous bound; the loop in fact
exits on its first iteration because `quality ≤ jpeg_min_quality` always holds
on entry). -/
def jpegFuelB (cfg : Config) : ℕ :=
  (cfg.jpeg_initial_quality + 1) * (scaleFuel cfg + 1) + 1

/-- Embedding of `ImageProcessor.compress_jpeg`.  `jenc b q` is the byte
length of `b.save(buffer, format='JPEG', quality=q, optimize=True)`;
`jdec b q` is the bitmap obtained by `Image.open`-ing that buffer (the
decoded form of the encode of `b` at quality `q`). -/
def compress_jpeg (cfg : Config) (jenc : Bitmap → ℕ → Except PyErr ℕ)
    (jdec : Bitmap → ℕ → Bitmap) (image : Bitmap)
    (max_file_size_bytes target_width target_height : ℕ) : Run (Bitmap × Msg) :=
  let processed := image
  match jpegQualityLoop (jenc processed) max_file_size_bytes
      cfg.jpeg_min_quality cfg.jpeg_quality_step (jpegFuelA cfg)
      cfg.jpeg_initial_quality with
  | .fuelOut => .fuelOut
  | .raised e => .raised e
  | .out (.inl (file_size, quality)) =>
    .out (jdec processed quality, .jpegFitQuality file_size quality)
  | .out (.inr quality) =>
    match jpegScaleLoop jenc processed max_file_size_bytes cfg.jpeg_min_quality
        cfg.jpeg_quality_step cfg.min_scale_factor cfg.scale_factor_step
        target_width target_height (jpegFuelB cfg) quality (9/10) with
    | .fuelOut => .fuelOut
    | .raised e => .raised e
    | .out (.inl (temp_img, new_width, new_height, file_size, q)) =>
      .out (jdec temp_img q, .jpegFitReduced new_width new_height file_size q)
    | .out (.inr q) =>
      match jenc processed q with
      | .error e => .raised e
      | .ok file_size => .out (processed, .couldNotFit file_size)

/-- Embedding of the downscaling `while` loop of `compress_png`.  `penc b` is
the byte length of saving `b` as PNG at the configured compression level with
`optimize=True`.  Loop state is `(file_size, scale_factor)`; the condition is
the source's `while file_size > max_file_size_bytes and scale_factor >=
min_scale_factor`.  Returns `.inl (temp_img, new_width, new_height,
file_size)` on a fit, `.inr file_size` (the last measured size) on exit. -/
def pngScaleLoop (penc : Bitmap → Except PyErr ℕ) (processed : Bitmap)
    (maxB : ℕ) (minS sstep : ℚ) (target_w target_h : ℕ) :
    ℕ → ℕ → ℚ → Run ((Bitmap × ℕ × ℕ × ℕ) ⊕ ℕ)
  | 0, _, _ => .fuelOut
  | fuel + 1, file_size, s =>
    if maxB < file_size ∧ minS ≤ s then
      let new_width := pyIntQN ((target_w : ℚ) * s)
      let new_height := pyIntQN ((target_h : ℚ) * s)
      let temp_img := processed.resize new_width new_height
      match penc temp_img with
      | .error e => .raised e
      | .ok file_size' =>
        if file_size' ≤ maxB then
          .out (.inl (temp_img, new_width, new_height, file_size'))
        else
          pngScaleLoop penc processed maxB minS sstep target_w target_h
            fuel file_size' (s - sstep)
    else .out (.inr file_size)

/-- Embedding of `ImageProcessor.compress_png`.  Step 1: lossless encode, fit
check.  Step 2: if the mode is not `P`, convert to an adaptive palette and
re-encode (note the source does not return here even when the re-encode
fits).  Step 3: if `file_size > max_file_size_bytes`, run the downscaling
loop; otherwise, and on loop exhaustion, fall through to the warning return
`(processed, couldNotFit file_size)`. -/
def compress_png (cfg : Config) (penc : Bitmap → Except PyErr ℕ)
    (image : Bitmap) (max_file_size_bytes target_width target_height : ℕ) :
    Run (Bitmap × Msg) :=
  let processed := image
  match penc processed with
  | .error e => .raised e
  | .ok file_size =>
    if file_size ≤ max_file_size_bytes then .out (processed, .pngFit file_size)
    else
      let afterPalette : Run (Bitmap × ℕ) :=
        if processed.mode ≠ Mode.P then
          match penc processed.convertP with
          | .error e => .raised e
          | .ok file_size2 => .out (processed.convertP, file_size2)
        else .out (processed, file_size)
      match afterPalette with
      | .fuelOut => .fuelOut
      | .raised e => .raised e
      | .out (processed2, file_size2) =>
        if max_file_size_bytes < file_size2 then
          match pngScaleLoop penc processed2 max_file_size_bytes
              cfg.min_scale_factor cfg.scale_factor_step target_width
              target_height (scaleFuel cfg + 1) file_size2 (9/10) with
          | .fuelOut => .fuelOut
          | .raised e => .raised e
          | .out (.inl (temp_img, new_width, new_height, file_size3)) =>
            .out (temp_img, .pngFitReduced new_width new_height file_size3)
          | .out (.inr file_size_last) =>
            .out (processed2, .couldNotFit file_size_last)
        else .out (processed2, .couldNotFit file_size2)

/-- Python `output_format.lower() in ['jpg', 'jpeg']`. -/
def lowerIsJpeg (output_format : String) : Bool :=
  output_format.toLower == "jpg" || output_format.toLower == "jpeg"

/-- The tail of `process_image`'s `try` block together with its `except`
clause: a normal compression result `(processed, info)` becomes
`(some processed, info)`; a raised `ValueError`/`IOError`/`OSError` is caught
and becomes `(none, "Error processing image: " + str(e))`. -/
def catchReturn (r : Run (Bitmap × Msg)) : Run (Option Bitmap × Msg) :=
  match r with
  | .out (processed, info) => .out (some processed, info)
  | .raised e => .out (none, .procError e)
  | .fuelOut => .fuelOut

/-- Embedding of `ImageProcessor.process_image`.  The `None` guard returns
the upload prompt; otherwise the crop, the resize to the target resolution,
the unit conversions `int(crop_size_inches * dpi)` and
`int(max_file_size_mb * 1024 * 1024)`, the codec dispatch on
`output_format.lower()`, and the `except (ValueError, IOError, OSError)`
clause, exactly as in the source. -/
def process_image (cfg : Config) (jenc : Bitmap → ℕ → Except PyErr ℕ)
    (jdec : Bitmap → ℕ → Bitmap) (penc : Bitmap → Except PyErr ℕ)
    (image : Option Bitmap) (crop_size_inches : ℚ)
    (target_width target_height : ℕ) (max_file_size_mb : ℚ)
    (output_format : String) (dpi : ℕ) : Run (Option Bitmap × Msg) :=
  match image with
  | none => .out (none, .uploadFirst)
  | some img =>
    let crop_size_pixels := pyIntQN (crop_size_inches * (dpi : ℚ))
    let cropped := crop_to_square img crop_size_pixels
    let processed := cropped.resize target_width target_height
    let max_file_size_bytes := pyIntQN (max_file_size_mb * 1024 * 1024)
    if lowerIsJpeg output_format then
      catchReturn (compress_jpeg cfg jenc jdec processed max_file_size_bytes
        target_width target_height)
    else
      catchReturn (compress_png cfg penc processed max_file_size_bytes
        target_width target_height)

/-! Helper lemmas about the fuel-indexed loops. -/

/-- When the phase-A loop exits normally without a fit, the quality it exits
with is at or below the floor. -/
theorem jpegQualityLoop_inr_le {jencf : ℕ → Except PyErr ℕ}
    {maxB minQ qstep : ℕ} :
    ∀ {fuel q q' : ℕ},
      jpegQualityLoop jencf maxB minQ qstep fuel q = .out (.inr q') →
      q' ≤ minQ := by
  intro fuel
  induction fuel with
  | zero => intro q q' h; simp [jpegQualityLoop] at h
  | succ n ih =>
    intro q q' h
    rw [jpegQualityLoop] at h
    split at h
    · rename_i hq
      injection h with h1
      injection h1 with h2
      omega
    · split at h
      · exact absurd h (by simp)
      · split at h
        · exact absurd h (by simp)
        · exact ih h

/-- Fuel sufficiency for the phase-A loop: `fuel + 1` calls complete whenever
`q ≤ minQ + fuel * qstep`. -/
theorem jpegQualityLoop_ne_fuelOut {jencf : ℕ → Except PyErr ℕ}
    {maxB minQ qstep : ℕ} :
    ∀ {fuel q : ℕ}, q ≤ minQ + fuel * qstep →
      jpegQualityLoop jencf maxB minQ qstep (fuel + 1) q ≠ .fuelOut := by
  intro fuel
  induction fuel with
  | zero =>
    intro q hq
    rw [jpegQualityLoop]
    split
    · simp
    · omega
  | succ n ih =>
    intro q hq
    rw [Nat.succ_mul] at hq
    rw [jpegQualityLoop]
    split
    · simp
    · rename_i hgt
      cases hje : jencf q with
      | error e => simp [hje]
      | ok file_size =>
        simp only [hje]
        split
        · simp
        · exact ih (by omega)

/-- When every encode exceeds the budget, the phase-A loop exhausts and exits
with some quality at or below the floor. -/
theorem jpegQualityLoop_exhaust {jencf : ℕ → Except PyErr ℕ} {sz : ℕ → ℕ}
    {maxB minQ qstep : ℕ} (henc : ∀ q, jencf q = .ok (sz q))
    (hbig : ∀ q, maxB < sz q) :
    ∀ {fuel q : ℕ}, q ≤ minQ + fuel * qstep →
      ∃ q', q' ≤ minQ ∧
        jpegQualityLoop jencf maxB minQ qstep (fuel + 1) q = .out (.inr q') := by
  intro fuel
  induction fuel with
  | zero =>
    intro q hq
    refine ⟨q, by omega, ?_⟩
    rw [jpegQualityLoop]
    split
    · rfl
    · omega
  | succ n ih =>
    intro q hq
    by_cases hle : q ≤ minQ
    · refine ⟨q, hle, ?_⟩
      rw [jpegQualityLoop]
      split
      · rfl
      · omega
    · rw [Nat.succ_mul] at hq
      obtain ⟨q', hq', hloop⟩ := ih (q := q - qstep) (by omega)
      refine ⟨q', hq', ?_⟩
      rw [jpegQualityLoop]
      split
      · omega
      · rw [henc q]
        simp only
        split
        · exact absurd ‹sz q ≤ maxB› (by exact Nat.not_le.mpr (hbig q))
        · exact hloop

/-- First-fit characterization of the phase-A loop: if the quality reached at
iteration `k` (namely `q - k * qstep`) is above the floor and its encode fits
while every earlier iteration's encode does not, the loop returns that fit. -/
theorem jpegQualityLoop_first_fit {jencf : ℕ → Except PyErr ℕ} {sz : ℕ → ℕ}
    {maxB minQ qstep : ℕ} (henc : ∀ q, jencf q = .ok (sz q)) :
    ∀ {k fuel q : ℕ}, k < fuel → minQ < q - k * qstep →
      sz (q - k * qstep) ≤ maxB → (∀ j, j < k → maxB < sz (q - j * qstep)) →
      jpegQualityLoop jencf maxB minQ qstep fuel q =
        .out (.inl (sz (q - k * qstep), q - k * qstep)) := by
  intro k
  induction k with
  | zero =>
    intro fuel q hfuel hfloor hfit _
    obtain ⟨n, rfl⟩ := Nat.exists_eq_add_of_lt hfuel
    simp only [Nat.zero_mul, Nat.sub_zero] at hfloor hfit
    rw [jpegQualityLoop]
    split
    · omega
    · rw [henc q]
      simp only
      rw [if_pos hfit, Nat.zero_mul, Nat.sub_zero]
  | succ k ih =>
    intro fuel q hfuel hfloor hfit hmiss
    obtain ⟨n, rfl⟩ := Nat.exists_eq_add_of_lt hfuel
    rw [jpegQualityLoop]
    have hq0 : maxB < sz q := by
      have := hmiss 0 (Nat.succ_pos k)
      simpa using this
    split
    · rename_i hle
      have : q - (k + 1) * qstep ≤ q := Nat.sub_le _ _
      omega
    · rw [henc q]
      simp only
      rw [if_neg (by omega)]
      have hsub : q - qstep - k * qstep = q - (k + 1) * qstep := by
        rw [Nat.sub_sub, Nat.succ_mul, Nat.add_comm (k * qstep) qstep]
      rw [← hsub] at hfloor hfit
      rw [ih (by omega) hfloor hfit ?_]
      · rw [hsub]
      · intro j hj
        have := hmiss (j + 1) (by omega)
        have hsub' : q - qstep - j * qstep = q - (j + 1) * qstep := by
          rw [Nat.sub_sub, Nat.succ_mul, Nat.add_comm (j * qstep) qstep]
        rw [hsub']
        exact this

/-- The second `compress_jpeg` loop exits immediately when entered with
quality at or below the floor (as always happens after phase A exhausts). -/
theorem jpegScaleLoop_exit {jenc : Bitmap → ℕ → Except PyErr ℕ}
    {processed : Bitmap} {maxB minQ qstep : ℕ} {minS sstep : ℚ}
    {target_w target_h : ℕ} {fuel q : ℕ} {s : ℚ} (hq : q ≤ minQ) :
    jpegScaleLoop jenc processed maxB minQ qstep minS sstep target_w target_h
      (fuel + 1) q s = .out (.inr q) := by
  rw [jpegScaleLoop]
  rw [if_pos hq]

/-- Fuel sufficiency for the PNG downscaling loop: `fuel + 1` calls complete
whenever `s - fuel * sstep < minS` (the scale factor drops below the floor
within `fuel` decrements). -/
theorem pngScaleLoop_ne_fuelOut {penc : Bitmap → Except PyErr ℕ}
    {processed : Bitmap} {maxB : ℕ} {minS sstep : ℚ} {target_w target_h : ℕ} :
    ∀ (fuel file_size : ℕ) (s : ℚ), s - (fuel : ℚ) * sstep < minS →
      pngScaleLoop penc processed maxB minS sstep target_w target_h
        (fuel + 1) file_size s ≠ .fuelOut := by
  intro fuel
  induction fuel with
  | zero =>
    intro file_size s hs
    rw [pngScaleLoop]
    split
    · rename_i hcond
      push_cast at hs
      exact absurd hcond.2 (by linarith)
    · simp
  | succ n ih =>
    intro file_size s hs
    rw [pngScaleLoop]
    split
    · cases hpe : penc (processed.resize (pyIntQN ((target_w : ℚ) * s))
          (pyIntQN ((target_h : ℚ) * s))) with
      | error e => simp [hpe]
      | ok file_size' =>
        simp only [hpe]
        split
        · simp
        · refine ih _ _ ?_
          push_cast at hs ⊢
          linarith
    · simp

/-- When every encode exceeds the budget, the PNG downscaling loop exhausts
and exits with the last measured byte count. -/
theorem pngScaleLoop_exhaust {penc : Bitmap → Except PyErr ℕ} {psz : Bitmap → ℕ}
    {processed : Bitmap} {maxB : ℕ} {minS sstep : ℚ} {target_w target_h : ℕ}
    (henc : ∀ b, penc b = .ok (psz b)) (hbig : ∀ b, maxB < psz b) :
    ∀ (fuel file_size : ℕ) (s : ℚ), s - (fuel : ℚ) * sstep < minS →
      ∃ last, pngScaleLoop penc processed maxB minS sstep target_w target_h
        (fuel + 1) file_size s = .out (.inr last) := by
  intro fuel
  induction fuel with
  | zero =>
    intro file_size s hs
    refine ⟨file_size, ?_⟩
    rw [pngScaleLoop]
    split
    · rename_i hcond
      push_cast at hs
      exact absurd hcond.2 (by linarith)
    · rfl
  | succ n ih =>
    intro file_size s hs
    rw [pngScaleLoop]
    split
    · simp only [henc]
      rw [if_neg (Nat.not_le.mpr (hbig _))]
      refine ih _ _ ?_
      push_cast at hs ⊢
      linarith
    · exact ⟨file_size, rfl⟩

/-- The fuel computed by `scaleFuel` is enough: starting from 9/10, after
`scaleFuel cfg` decrements by a positive `scale_factor_step` the scale factor
is below `min_scale_factor`. -/
theorem scaleFuel_spec (cfg : Config) (hst : 0 < cfg.scale_factor_step) :
    (9 : ℚ)/10 - (scaleFuel cfg : ℚ) * cfg.scale_factor_step <
      cfg.min_scale_factor := by
  rcases le_or_lt ((9 : ℚ)/10 - cfg.min_scale_factor) 0 with hx | hx
  · have hn : (1 : ℚ) ≤ (scaleFuel cfg : ℚ) := by
      have h1 : 1 ≤ scaleFuel cfg := Nat.le_add_left 1 _
      exact_mod_cast h1
    nlinarith
  · have hxpos : 0 < ((9 : ℚ)/10 - cfg.min_scale_factor) / cfg.scale_factor_step :=
      div_pos hx hst
    have hcast : ((⌈((9 : ℚ)/10 - cfg.min_scale_factor) / cfg.scale_factor_step⌉.toNat : ℚ)) =
        ((⌈((9 : ℚ)/10 - cfg.min_scale_factor) / cfg.scale_factor_step⌉ : ℤ) : ℚ) := by
      exact_mod_cast congrArg (fun z : ℤ => (z : ℚ))
        (Int.toNat_of_nonneg (Int.ceil_nonneg hxpos.le))
    have hceil : ((9 : ℚ)/10 - cfg.min_scale_factor) / cfg.scale_factor_step ≤
        ((⌈((9 : ℚ)/10 - cfg.min_scale_factor) / cfg.scale_factor_step⌉.toNat : ℚ)) := by
      rw [hcast]
      exact Int.le_ceil _
    rw [div_le_iff₀ hst] at hceil
    have hfuel : (scaleFuel cfg : ℚ) =
        ((⌈((9 : ℚ)/10 - cfg.min_scale_factor) / cfg.scale_factor_step⌉.toNat : ℚ)) + 1 := by
      unfold scaleFuel
      push_cast
      ring
    rw [hfuel]
    nlinarith

/-! Concrete bitmaps and size oracles used by the counterexample and witness
theorems. -/

/-- Decode oracle that returns the encoded bitmap unchanged (the dimensions of
a decoded JPEG equal those of the bitmap that was encoded). -/
def jdecId : Bitmap → ℕ → Bitmap := fun b _ => b

/-- The default target resolution as a bitmap: 461 × 579, truecolor. -/
def imgPortrait : Bitmap := { width := 461, height := 579, mode := Mode.RGB }

/-- A 1000 × 1500 truecolor source image (the spec's scenario input). -/
def imgSource : Bitmap := { width := 1000, height := 1500, mode := Mode.RGB }

/-- JPEG size oracle: every full-width (461 px) encode is 10000 bytes at every
quality; every narrower (downscaled) encode is 1 byte. -/
def jencFullBig : Bitmap → ℕ → Except PyErr ℕ :=
  fun b _ => .ok (if b.width < 461 then 1 else 10000)

/-- JPEG size oracle, monotone in quality: 0 bytes at quality ≤ 10 and 999999
bytes above — the budget is achievable exactly at the configured floor. -/
def jencFloorOnly : Bitmap → ℕ → Except PyErr ℕ :=
  fun _ q => .ok (if q ≤ 10 then 0 else 999999)

/-- JPEG size oracle whose byte length equals the quality level (monotone). -/
def jencLinear : Bitmap → ℕ → Except PyErr ℕ := fun _ q => .ok q

/-- The size function underlying `jencLinear`. -/
def szLinear : ℕ → ℕ := fun q => q

/-- PNG size oracle: palette-mode bitmaps encode to 100 bytes, all others to
10000 bytes. -/
def pencPaletteSmall : Bitmap → Except PyErr ℕ :=
  fun b => .ok (if b.mode = Mode.P then 100 else 10000)

/-- PNG size oracle: byte length is `width + 10000` (distinguishes every
attempted scale, always over a budget of 100). -/
def pencWidthSize : Bitmap → Except PyErr ℕ := fun b => .ok (b.width + 10000)

/-- PNG size oracle: every encode is 0 bytes (always fits). -/
def pencTiny : Bitmap → Except PyErr ℕ := fun _ => .ok 0

/-! Claim theorems. -/

/-- C6: for every source bitmap and crop size, and positive target
dimensions, the geometry stage (`crop_to_square` followed by the
unconditional LANCZOS resize, `crop_and_resample`) outputs a bitmap of
exactly `target_w × target_h`. -/
theorem crop_and_resample_dims (image : Bitmap) (crop_px target_w target_h : ℕ)
    (hw : 0 < target_w) (hh : 0 < target_h) :
    (crop_and_resample image crop_px target_w target_h).width = target_w ∧
    (crop_and_resample image crop_px target_w target_h).height = target_h :=
  ⟨rfl, rfl⟩

/-- Witness for `crop_and_resample_dims` at the spec's scenario input:
1000 × 1500 source, crop 600 px, target 461 × 579. -/
theorem crop_and_resample_dims_witness :
    0 < 461 ∧ 0 < 579 ∧
    ((crop_and_resample imgSource 600 461 579).width = 461 ∧
     (crop_and_resample imgSource 600 461 579).height = 579) :=
  ⟨by decide, by decide,
   crop_and_resample_dims imgSource 600 461 579 (by decide) (by decide)⟩

/-- C7: the crop box computed by `crop_to_square` is centered — writing
`(left, top, right, bottom) = cropBox w h`, both `left + right` and
`top + bottom` equal the source dimension to within 1 (the integer-division
rounding), and the box spans `min w h × min w h`. -/
theorem cropBox_centered (w h : ℕ) :
    (cropBox w h).1 + (cropBox w h).2.2.1 ≤ w ∧
    w ≤ (cropBox w h).1 + (cropBox w h).2.2.1 + 1 ∧
    (cropBox w h).2.1 + (cropBox w h).2.2.2 ≤ h ∧
    h ≤ (cropBox w h).2.1 + (cropBox w h).2.2.2 + 1 ∧
    (cropBox w h).2.2.1 - (cropBox w h).1 = min w h ∧
    (cropBox w h).2.2.2 - (cropBox w h).2.1 = min w h := by
  simp only [cropBox]
  omega

/-- C9: a `None` input image short-circuits `process_image` to
`(None, "Please upload an image first.")`; no cropping, resizing or encoding
oracle is consulted (the result is independent of all of them). -/
theorem process_image_none (cfg : Config) (jenc : Bitmap → ℕ → Except PyErr ℕ)
    (jdec : Bitmap → ℕ → Bitmap) (penc : Bitmap → Except PyErr ℕ)
    (crop_size_inches : ℚ) (target_width target_height : ℕ)
    (max_file_size_mb : ℚ) (output_format : String) (dpi : ℕ) :
    process_image cfg jenc jdec penc none crop_size_inches target_width
      target_height max_file_size_mb output_format dpi =
      .out (none, .uploadFirst) := rfl

/-- The `except (ValueError, IOError, OSError)` clause maps every propagating
exception to a normal `(None, error-message)` return. -/
theorem catchReturn_not_raised (r : Run (Bitmap × Msg)) :
    (catchReturn r).isRaised = false := by
  cases r with
  | out p => cases p; rfl
  | raised e => rfl
  | fuelOut => rfl

/-- C10: `process_image` never lets a `ValueError`, `IOError` or `OSError`
escape: whatever the codec oracles raise, the result is never a propagating
exception (the `try` block spans the whole pipeline and the `except` clause
returns `(None, message)` instead). -/
theorem process_image_never_raises (cfg : Config)
    (jenc : Bitmap → ℕ → Except PyErr ℕ) (jdec : Bitmap → ℕ → Bitmap)
    (penc : Bitmap → Except PyErr ℕ) (image : Option Bitmap)
    (crop_size_inches : ℚ) (target_width target_height : ℕ)
    (max_file_size_mb : ℚ) (output_format : String) (dpi : ℕ) :
    (process_image cfg jenc jdec penc image crop_size_inches target_width
      target_height max_file_size_mb output_format dpi).isRaised = false := by
  cases image with
  | none => rfl
  | some img =>
    simp only [process_image]
    split
    · exact catchReturn_not_raised _
    · exact catchReturn_not_raised _

/-- C2 (counterexample): with output format "gif" — neither JPEG nor PNG — the
encoder does not fail with any UnsupportedCodec error (none exists in the
code): the request is silently encoded by the PNG policy and succeeds.  Spec
scenario input: 1000 × 1500 source, 2.0 in crop at 300 dpi, 461 × 579 target,
1 MB budget. -/
theorem process_image_gif_no_error :
    process_image DEFAULT_CONFIG jencFullBig jdecId pencTiny (some imgSource)
      2 461 579 1 "gif" 300 =
      .out (some { width := 461, height := 579, mode := Mode.RGB },
            .pngFit 0) := by
  with_unfolding_all rfl

/-- C2 (amended): every request whose format does not lowercase to "jpg" or
"jpeg" is dispatched to the PNG policy, `compress_png`, on the cropped and
resized bitmap — it is not rejected. -/
theorem process_image_nonjpeg_dispatches_png (cfg : Config)
    (jenc : Bitmap → ℕ → Except PyErr ℕ) (jdec : Bitmap → ℕ → Bitmap)
    (penc : Bitmap → Except PyErr ℕ) (img : Bitmap) (crop_size_inches : ℚ)
    (target_width target_height : ℕ) (max_file_size_mb : ℚ)
    (output_format : String) (dpi : ℕ)
    (hfmt : lowerIsJpeg output_format = false) :
    process_image cfg jenc jdec penc (some img) crop_size_inches target_width
      target_height max_file_size_mb output_format dpi =
      catchReturn (compress_png cfg penc
        ((crop_to_square img (pyIntQN (crop_size_inches * (dpi : ℚ)))).resize
          target_width target_height)
        (pyIntQN (max_file_size_mb * 1024 * 1024)) target_width target_height) := by
  simp [process_image, hfmt]

/-- Witness for `process_image_nonjpeg_dispatches_png` at format "gif". -/
theorem process_image_nonjpeg_dispatches_png_witness :
    lowerIsJpeg "gif" = false ∧
    process_image DEFAULT_CONFIG jencFullBig jdecId pencTiny (some imgSource)
      2 461 579 1 "gif" 300 =
      catchReturn (compress_png DEFAULT_CONFIG pencTiny
        ((crop_to_square imgSource (pyIntQN (2 * (300 : ℚ)))).resize 461 579)
        (pyIntQN (1 * 1024 * 1024)) 461 579) :=
  ⟨by with_unfolding_all rfl,
   process_image_nonjpeg_dispatches_png DEFAULT_CONFIG jencFullBig jdecId
     pencTiny imgSource 2 461 579 1 "gif" 300 (by with_unfolding_all rfl)⟩

/-- C3: a truecolor bitmap whose lossless PNG encode (10000 bytes) exceeds the
1000-byte budget but whose adaptive-palette re-encode (100 bytes) fits it is
returned by `compress_png` with the "Warning: Could not compress below target
size" message — the code falls through past the palette re-encode without a
success return, even though the reported 100 bytes is within budget.  The
spec instead mandates a `FitAtReducedSizeWithPalette` success status here. -/
theorem png_palette_fit_reports_warning :
    compress_png DEFAULT_CONFIG pencPaletteSmall imgPortrait 1000 461 579 =
      .out (imgPortrait.convertP, .couldNotFit 100) ∧
    pencPaletteSmall imgPortrait.convertP = .ok 100 ∧ 100 ≤ 1000 := by
  refine ⟨by with_unfolding_all rfl, by with_unfolding_all rfl, by decide⟩

/-- C4: when the PNG downscaling loop exhausts every scale factor, the
returned bitmap is the pre-scaling 461 × 579 palette bitmap (whose encode is
10461 bytes under this oracle) while the reported byte count, 10230, is that
of the last attempted 230 × 289 downscale — the returned bitmap is not the
one whose encoding produced the reported size, contradicting the claim. -/
theorem png_could_not_fit_stale_bitmap :
    compress_png DEFAULT_CONFIG pencWidthSize imgPortrait 100 461 579 =
      .out (imgPortrait.convertP, .couldNotFit 10230) ∧
    pencWidthSize imgPortrait.convertP = .ok 10461 ∧
    pencWidthSize (imgPortrait.convertP.resize 230 289) = .ok 10230 := by
  refine ⟨by with_unfolding_all rfl, by with_unfolding_all rfl,
    by with_unfolding_all rfl⟩

/-- C1: phase A exhausted does not lead to a joint scale+quality search.
Under this oracle every full-resolution encode is 10000 bytes (over the
5000-byte budget at every quality), so phase A exhausts; every downscaled
encode is 1 byte, so the claimed phase B would fit already at scale 0.9
(414 × 521) and return a reduced-size success.  Instead `compress_jpeg`
returns the full-resolution fallback with the could-not-fit warning: after
phase A the quality equals `jpeg_min_quality`, so the second loop's guard
`quality > jpeg_min_quality` is false on entry and no downscaled encode is
ever attempted. -/
theorem jpeg_phaseB_never_runs :
    compress_jpeg DEFAULT_CONFIG jencFullBig jdecId imgPortrait 5000 461 579 =
      .out (imgPortrait, .couldNotFit 10000) ∧
    jencFullBig (imgPortrait.resize 414 521) 10 = .ok 1 ∧ 1 ≤ 5000 := by
  refine ⟨by with_unfolding_all rfl, by with_unfolding_all rfl, by decide⟩

/-- C5 (counterexample): a budget of 100 bytes achievable at quality 10 — the
configured floor, hence "quality ≥ floor at full scale" — under a monotone
size oracle.  Phase A never attempts the floor itself (its guard is the
strict `quality > jpeg_min_quality`), so it returns no fit; the function
falls through to the fallback, which does encode at quality 10, gets 0 bytes
(within budget), and still reports the could-not-fit warning.  This refutes
the claim that phase A attempts every level down to and including the floor
and returns the highest fitting one. -/
theorem jpeg_phaseA_skips_floor :
    compress_jpeg DEFAULT_CONFIG jencFloorOnly jdecId imgPortrait 100 461 579 =
      .out (imgPortrait, .couldNotFit 0) ∧
    jencFloorOnly imgPortrait 10 = .ok 0 ∧
    DEFAULT_CONFIG.jpeg_min_quality = 10 := by
  refine ⟨by with_unfolding_all rfl, by with_unfolding_all rfl, by decide⟩

/-- C5 (amended): phase A attempts the qualities
`jpeg_initial_quality - j * jpeg_quality_step` only while strictly above
`jpeg_min_quality`; if iteration `k` reaches a quality above the floor whose
encode fits the budget while all earlier (higher-quality) encodes exceed it,
`compress_jpeg` returns exactly that quality and size — the highest fitting
level (and the first fit) in the attempted descending sequence. -/
theorem compress_jpeg_phaseA_first_fit (cfg : Config)
    (jenc : Bitmap → ℕ → Except PyErr ℕ) (jdec : Bitmap → ℕ → Bitmap)
    (image : Bitmap) (maxB target_w target_h : ℕ) (sz : ℕ → ℕ) (k : ℕ)
    (henc : ∀ q, jenc image q = .ok (sz q))
    (hfloor : cfg.jpeg_min_quality <
      cfg.jpeg_initial_quality - k * cfg.jpeg_quality_step)
    (hfit : sz (cfg.jpeg_initial_quality - k * cfg.jpeg_quality_step) ≤ maxB)
    (hmiss : ∀ j, j < k →
      maxB < sz (cfg.jpeg_initial_quality - j * cfg.jpeg_quality_step)) :
    compress_jpeg cfg jenc jdec image maxB target_w target_h =
      .out (jdec image (cfg.jpeg_initial_quality - k * cfg.jpeg_quality_step),
        .jpegFitQuality
          (sz (cfg.jpeg_initial_quality - k * cfg.jpeg_quality_step))
          (cfg.jpeg_initial_quality - k * cfg.jpeg_quality_step)) := by
  have hk : k < jpegFuelA cfg := by
    rcases Nat.eq_zero_or_pos cfg.jpeg_quality_step with h0 | h1
    · rcases Nat.eq_zero_or_pos k with hk0 | hk1
      · simp [jpegFuelA, hk0]
      · exfalso
        have := hmiss 0 hk1
        rw [h0] at hfit this
        simp at hfit this
        omega
    · have hmul : k * 1 ≤ k * cfg.jpeg_quality_step :=
        Nat.mul_le_mul_left k h1
      have : k * cfg.jpeg_quality_step < cfg.jpeg_initial_quality := by omega
      simp only [jpegFuelA]
      omega
  have hloop := jpegQualityLoop_first_fit henc hk hfloor hfit hmiss
  simp only [compress_jpeg, hloop]

/-- Witness for `compress_jpeg_phaseA_first_fit`: byte length equal to the
quality level, budget 50; iteration 9 reaches quality 50 = 95 - 9·5, the
highest fitting level, and the result is a fit at quality 50. -/
theorem compress_jpeg_phaseA_first_fit_witness :
    (∀ q, jencLinear imgPortrait q = .ok (szLinear q)) ∧
    DEFAULT_CONFIG.jpeg_min_quality <
      DEFAULT_CONFIG.jpeg_initial_quality - 9 * DEFAULT_CONFIG.jpeg_quality_step ∧
    szLinear (DEFAULT_CONFIG.jpeg_initial_quality -
      9 * DEFAULT_CONFIG.jpeg_quality_step) ≤ 50 ∧
    (∀ j, j < 9 → 50 < szLinear (DEFAULT_CONFIG.jpeg_initial_quality -
      j * DEFAULT_CONFIG.jpeg_quality_step)) ∧
    compress_jpeg DEFAULT_CONFIG jencLinear jdecId imgPortrait 50 461 579 =
      .out (jdecId imgPortrait 50, .jpegFitQuality 50 50) :=
  ⟨fun _ => rfl, by decide, by decide, by decide,
   compress_jpeg_phaseA_first_fit DEFAULT_CONFIG jencLinear jdecId imgPortrait
     50 461 579 szLinear 9 (fun _ => rfl) (by decide) (by decide) (by decide)⟩

/-- The phase-A fuel suffices when the quality step is positive. -/
theorem jpegFuelA_bound (cfg : Config) (hq : 0 < cfg.jpeg_quality_step) :
    cfg.jpeg_initial_quality ≤
      cfg.jpeg_min_quality + cfg.jpeg_initial_quality * cfg.jpeg_quality_step := by
  have hmul : cfg.jpeg_initial_quality * 1 ≤
      cfg.jpeg_initial_quality * cfg.jpeg_quality_step :=
    Nat.mul_le_mul_left _ hq
  omega

/-- With a positive quality step, `compress_jpeg` never runs out of fuel,
whatever the oracles return. -/
theorem compress_jpeg_ne_fuelOut (cfg : Config)
    (jenc : Bitmap → ℕ → Except PyErr ℕ) (jdec : Bitmap → ℕ → Bitmap)
    (image : Bitmap) (maxB target_w target_h : ℕ)
    (hq : 0 < cfg.jpeg_quality_step) :
    compress_jpeg cfg jenc jdec image maxB target_w target_h ≠ .fuelOut := by
  have hA : jpegQualityLoop (jenc image) maxB cfg.jpeg_min_quality
      cfg.jpeg_quality_step (jpegFuelA cfg) cfg.jpeg_initial_quality ≠
      .fuelOut :=
    jpegQualityLoop_ne_fuelOut (jpegFuelA_bound cfg hq)
  cases hres : jpegQualityLoop (jenc image) maxB cfg.jpeg_min_quality
      cfg.jpeg_quality_step (jpegFuelA cfg) cfg.jpeg_initial_quality with
  | fuelOut => exact absurd hres hA
  | raised e => simp [compress_jpeg, hres]
  | out v =>
    rcases v with ⟨file_size, quality⟩ | quality
    · simp [compress_jpeg, hres]
    · have hq' : quality ≤ cfg.jpeg_min_quality := jpegQualityLoop_inr_le hres
      have hexit : jpegScaleLoop jenc image maxB cfg.jpeg_min_quality
          cfg.jpeg_quality_step cfg.min_scale_factor cfg.scale_factor_step
          target_w target_h (jpegFuelB cfg) quality (9/10) =
          .out (.inr quality) := jpegScaleLoop_exit hq'
      cases hje : jenc image quality with
      | error e => simp [compress_jpeg, hres, hexit, hje]
      | ok file_size => simp [compress_jpeg, hres, hexit, hje]

/-- With a positive scale step, `compress_png` never runs out of fuel,
whatever the oracle returns. -/
theorem compress_png_ne_fuelOut (cfg : Config)
    (penc : Bitmap → Except PyErr ℕ) (image : Bitmap)
    (maxB target_w target_h : ℕ) (hs : 0 < cfg.scale_factor_step) :
    compress_png cfg penc image maxB target_w target_h ≠ .fuelOut := by
  have hspec := scaleFuel_spec cfg hs
  simp only [compress_png]
  cases hpe : penc image with
  | error e => simp
  | ok file_size =>
    simp only
    split
    · simp
    · cases hpal : (if image.mode ≠ Mode.P then
          match penc image.convertP with
          | .error e => Run.raised e
          | .ok file_size2 => Run.out (image.convertP, file_size2)
        else Run.out (image, file_size) : Run (Bitmap × ℕ)) with
      | fuelOut =>
        exfalso
        split at hpal
        · split at hpal <;> simp at hpal
        · simp at hpal
      | raised e => simp [hpal]
      | out p =>
        rcases p with ⟨processed2, file_size2⟩
        simp only [hpal]
        split
        · cases hloop : pngScaleLoop penc processed2 maxB cfg.min_scale_factor
              cfg.scale_factor_step target_w target_h (scaleFuel cfg + 1)
              file_size2 (9/10) with
          | fuelOut =>
            exact absurd hloop (pngScaleLoop_ne_fuelOut _ _ _ hspec)
          | raised e => simp [hloop]
          | out v =>
            rcases v with ⟨temp, nw, nh, fs⟩ | last <;> simp [hloop]
        · simp

/-- With every full-resolution JPEG encode over budget, `compress_jpeg`
returns the input bitmap with the could-not-fit warning (phase A exhausts,
the second loop exits immediately, and the fallback re-encode is over budget
too). -/
theorem compress_jpeg_unmeetable (cfg : Config)
    (jenc : Bitmap → ℕ → Except PyErr ℕ) (jdec : Bitmap → ℕ → Bitmap)
    (jsz : Bitmap → ℕ → ℕ) (image : Bitmap) (maxB target_w target_h : ℕ)
    (hjenc : ∀ b q, jenc b q = .ok (jsz b q))
    (hq : 0 < cfg.jpeg_quality_step) (hbig : ∀ b q, maxB < jsz b q) :
    ∃ s, compress_jpeg cfg jenc jdec image maxB target_w target_h =
      .out (image, .couldNotFit s) := by
  obtain ⟨q', hq', hloop⟩ :=
    jpegQualityLoop_exhaust (hjenc image) (hbig image) (jpegFuelA_bound cfg hq)
  have hexit : jpegScaleLoop jenc image maxB cfg.jpeg_min_quality
      cfg.jpeg_quality_step cfg.min_scale_factor cfg.scale_factor_step
      target_w target_h (jpegFuelB cfg) q' (9/10) = .out (.inr q') :=
    jpegScaleLoop_exit hq'
  refine ⟨jsz image q', ?_⟩
  have hloop' : jpegQualityLoop (jenc image) maxB cfg.jpeg_min_quality
      cfg.jpeg_quality_step (jpegFuelA cfg) cfg.jpeg_initial_quality =
      .out (.inr q') := hloop
  simp [compress_jpeg, hloop', hexit, hjenc]

/-- With every PNG encode over budget, `compress_png` returns a could-not-fit
warning (the initial encode, the palette re-encode and every downscaled
attempt are all over budget). -/
theorem compress_png_unmeetable (cfg : Config)
    (penc : Bitmap → Except PyErr ℕ) (psz : Bitmap → ℕ) (image : Bitmap)
    (maxB target_w target_h : ℕ) (hpenc : ∀ b, penc b = .ok (psz b))
    (hs : 0 < cfg.scale_factor_step) (hbig : ∀ b, maxB < psz b) :
    ∃ s bmp, compress_png cfg penc image maxB target_w target_h =
      .out (bmp, .couldNotFit s) := by
  have hspec := scaleFuel_spec cfg hs
  by_cases hm : image.mode = Mode.P
  · obtain ⟨last, hloop⟩ :=
      pngScaleLoop_exhaust hpenc hbig (scaleFuel cfg) (psz image) (9/10) hspec
    have hloop' : pngScaleLoop penc image maxB cfg.min_scale_factor
        cfg.scale_factor_step target_w target_h (scaleFuel cfg + 1)
        (psz image) (9/10) = .out (.inr last) := hloop
    refine ⟨last, image, ?_⟩
    simp [compress_png, hpenc, hm, Nat.not_le.mpr (hbig image), hbig image,
      hloop']
  · obtain ⟨last, hloop⟩ :=
      pngScaleLoop_exhaust hpenc hbig (scaleFuel cfg) (psz image.convertP)
        (9/10) hspec
    have hloop' : pngScaleLoop penc image.convertP maxB cfg.min_scale_factor
        cfg.scale_factor_step target_w target_h (scaleFuel cfg + 1)
        (psz image.convertP) (9/10) = .out (.inr last) := hloop
    refine ⟨last, image.convertP, ?_⟩
    simp [compress_png, hpenc, hm, Nat.not_le.mpr (hbig image),
      Nat.not_le.mpr (hbig image.convertP), hbig image.convertP, hloop']

/-- C8: for every bitmap and byte budget — including unmeetable ones — both
compression searches complete within the fuel bounds computed from the
configuration (quality decreases by a fixed positive step toward its floor,
the scale factor by a fixed positive step toward its floor), and an
unmeetable budget produces the could-not-fit warning result rather than a
non-terminating search. -/
theorem compression_search_terminates (cfg : Config)
    (jenc : Bitmap → ℕ → Except PyErr ℕ) (jdec : Bitmap → ℕ → Bitmap)
    (penc : Bitmap → Except PyErr ℕ) (jsz : Bitmap → ℕ → ℕ) (psz : Bitmap → ℕ)
    (image : Bitmap) (maxB target_w target_h : ℕ)
    (hjenc : ∀ b q, jenc b q = .ok (jsz b q))
    (hpenc : ∀ b, penc b = .ok (psz b))
    (hqstep : 0 < cfg.jpeg_quality_step)
    (hsstep : 0 < cfg.scale_factor_step) :
    compress_jpeg cfg jenc jdec image maxB target_w target_h ≠ .fuelOut ∧
    compress_png cfg penc image maxB target_w target_h ≠ .fuelOut ∧
    ((∀ b q, maxB < jsz b q) →
      ∃ s, compress_jpeg cfg jenc jdec image maxB target_w target_h =
        .out (image, .couldNotFit s)) ∧
    ((∀ b, maxB < psz b) →
      ∃ s bmp, compress_png cfg penc image maxB target_w target_h =
        .out (bmp, .couldNotFit s)) :=
  ⟨compress_jpeg_ne_fuelOut cfg jenc jdec image maxB target_w target_h hqstep,
   compress_png_ne_fuelOut cfg penc image maxB target_w target_h hsstep,
   fun hbig => compress_jpeg_unmeetable cfg jenc jdec jsz image maxB target_w
     target_h hjenc hqstep hbig,
   fun hbig => compress_png_unmeetable cfg penc psz image maxB target_w
     target_h hpenc hsstep hbig⟩

/-- JPEG size oracle: every encode is a gigabyte (over any realistic budget). -/
def jencHuge : Bitmap → ℕ → Except PyErr ℕ := fun _ _ => .ok 1000000000

/-- The size function underlying `jencHuge`. -/
def jszHuge : Bitmap → ℕ → ℕ := fun _ _ => 1000000000

/-- PNG size oracle: every encode is a gigabyte. -/
def pencHuge : Bitmap → Except PyErr ℕ := fun _ => .ok 1000000000

/-- The size function underlying `pencHuge`. -/
def pszHuge : Bitmap → ℕ := fun _ => 1000000000

/-- Witness for `compression_search_terminates` at the default configuration,
an impossibly small 10-byte budget, and gigabyte-sized encodes. -/
theorem compression_search_terminates_witness :
    (∀ b q, jencHuge b q = .ok (jszHuge b q)) ∧
    (∀ b, pencHuge b = .ok (pszHuge b)) ∧
    0 < DEFAULT_CONFIG.jpeg_quality_step ∧
    0 < DEFAULT_CONFIG.scale_factor_step ∧
    (compress_jpeg DEFAULT_CONFIG jencHuge jdecId imgPortrait 10 461 579 ≠
      .fuelOut ∧
    compress_png DEFAULT_CONFIG pencHuge imgPortrait 10 461 579 ≠ .fuelOut ∧
    ((∀ b q, 10 < jszHuge b q) →
      ∃ s, compress_jpeg DEFAULT_CONFIG jencHuge jdecId imgPortrait 10 461 579 =
        .out (imgPortrait, .couldNotFit s)) ∧
    ((∀ b, 10 < pszHuge b) →
      ∃ s bmp, compress_png DEFAULT_CONFIG pencHuge imgPortrait 10 461 579 =
        .out (bmp, .couldNotFit s))) :=
  ⟨fun _ _ => rfl, fun _ => rfl, by decide,
   show (0 : ℚ) < 1/20 by norm_num,
   compression_search_terminates DEFAULT_CONFIG jencHuge jdecId pencHuge
     jszHuge pszHuge imgPortrait 10 461 579 (fun _ _ => rfl) (fun _ => rfl)
     (by decide) (show (0 : ℚ) < 1/20 by norm_num)⟩

end Pixellate
